import Mathlib

/-!
Shallow embedding of the player-data aggregation pipeline of
`src/utils.js` (NyaaStats), together with proofs checking the
natural-language specification against it.

Conventions of the embedding:
* JavaScript promises that `resolve(v)` / `reject(e)` are modelled by
  `Except` (rejection payload on the left) or by `Option` when every
  rejection in the source carries no value (`reject()` with no argument).
* File-system and network effects are passed in explicitly through an
  `Env` record: `fsExists` models `fs.existsSync`, the `...File` fields
  model the contents of the files a run would read (`none` = missing or
  unreadable), `apiResult` models the single outcome of the outbound
  HTTP request, `now` models `Date.now()`.
* JavaScript numbers appearing as tick counts are modelled by `Int`,
  and the division by 20 (which in JavaScript is float division) by
  exact division in `ℚ`.
-/

namespace NyaaStats

/-- An entry of the Mojang name-history response: `{name, changedToAt?}`.
`changedToAt` is optional in the wire format. -/
structure NameEntry where
  name : String
  changedToAt : Option Nat
deriving DecidableEq

/-- The value stored under the `time_lived` key of the snapshot built in
`getPlayerData` (src/utils.js lines 132-135): the variable `lived` is
initialised to the empty string and overwritten with `ticksLived / 20`
only when the `Spigot.ticksLived` tag is present, so the key always
exists and holds either a number of seconds or the empty-string
sentinel. -/
inductive TimeLived where
  | secs (q : ℚ)
  | emptyStr
deriving DecidableEq

/-- The fields read from the binary player `.dat` file (src/utils.js
lines 133-137): optional `Spigot.ticksLived`, and the required
`bukkit.firstPlayed` / `bukkit.lastPlayed` timestamps. -/
structure NbtPlayer where
  ticksLived : Option Int
  firstPlayed : Int
  lastPlayed : Int
deriving DecidableEq

/-- The `pdata` object built in `getPlayerData` (src/utils.js lines
138-148).  The JavaScript object has no `banned` key at build time; the
key is added later by object spread in `createPlayerData`, so it is
modelled as an `Option` field with `none` meaning the key is absent. -/
structure PData where
  seen : Int
  time_start : Int
  time_last : Int
  time_lived : TimeLived
  playername : String
  names : List NameEntry
  uuid_short : String
  lastUpdate : Nat
  uuid : String
  banned : Option Bool
deriving DecidableEq

/-- Raw statistics document (contents of the per-player stats JSON
file). Its internal shape is irrelevant to every claim. -/
abbrev StatsDoc := List (String × Int)

/-- Canonical merged statistics form. -/
abbrev MergedStats := List (String × String × Int)

/-- Raw advancements document. -/
abbrev Adv := List String

/-- Modelled from the spec: `mergeStats` lives in `helper.js`, which is
not part of the given sources; section 4.2 requires only a
deterministic, pure, input-preserving normalization into a
category-key-value mapping, and no claim depends on its internals. -/
def mergeStats (d : StatsDoc) : MergedStats :=
  d.map (fun p => ("stat", p.1, p.2))

/-- Result of `getPlayerState`: `{merged, source}` (src/utils.js lines
89-92). -/
structure StatePair where
  merged : MergedStats
  source : StatsDoc
deriving DecidableEq

/-- The object produced by `getPlayerTotalData` and also the shape read
back from the cache file `stats.json`.  A cached JSON document may lack
any of the keys, so all fields are `Option`; `getPlayerTotalData`
always fills all four. -/
structure TotalData where
  stats : Option MergedStats
  stats_source : Option StatsDoc
  advancements : Option Adv
  data : Option PData
deriving DecidableEq

/-- Embedding of `path.join` specialised to the two-argument uses in the source. -/
def pathJoin (a b : String) : String := a ++ "/" ++ b

/-- The `uuid.replace` call that strips every dash from the uuid. -/
def stripDashes (s : String) : String :=
  String.mk (s.toList.filter (fun c => !(c == '-')))

/-- JavaScript `a && b` on strings: the empty string is falsy and is
returned as-is, otherwise the second operand is returned.  Used to
embed the asset-presence check of src/utils.js line 261 faithfully. -/
def jsStrAnd (a b : String) : String := if a = "" then a else b

/-- The external inputs one `createPlayerData` run can observe. -/
structure Env where
  output : String
  fsExists : String → Bool
  cacheContent : Option TotalData
  statsCfg : Bool
  statsFile : Option StatsDoc
  advCfg : Bool
  advFile : Option Adv
  nbtFile : Option NbtPlayer
  ratelimit : Nat
  apiResult : Except String (Option (List NameEntry))
  now : Nat
  assetsThrow : Bool

/-- The per-player output directory: `path.join` of
`config.render.output` and the dash-stripped uuid (src/utils.js line
250). -/
def playerPath (e : Env) (uuid : String) : String :=
  pathJoin e.output (stripDashes uuid)

/-- Embedding of `getPlayerState` (src/utils.js lines 76-94): rejects (with no
value) when the stats directory is unconfigured or the file is
unreadable, otherwise resolves the merged and source forms. -/
def getPlayerState (statsCfg : Bool) (statsFile : Option StatsDoc) :
    Option StatePair :=
  if statsCfg = false then none
  else
    match statsFile with
    | none => none
    | some d => some ⟨mergeStats d, d⟩

/-- Embedding of `getPlayerAdvancements` (src/utils.js lines 96-112): rejects when
the advancements directory is unconfigured or the file is unreadable,
otherwise resolves the parsed document. -/
def getPlayerAdvancements (advCfg : Bool) (advFile : Option Adv) :
    Option Adv :=
  if advCfg = false then none else advFile

instance {ε α : Type} [DecidableEq ε] [DecidableEq α] :
    DecidableEq (Except ε α) := fun x y =>
  match x, y with
  | Except.error a, Except.error b =>
    if h : a = b then Decidable.isTrue (h ▸ rfl)
    else Decidable.isFalse (fun hc => h (Except.error.inj hc))
  | Except.ok a, Except.ok b =>
    if h : a = b then Decidable.isTrue (h ▸ rfl)
    else Decidable.isFalse (fun hc => h (Except.ok.inj hc))
  | Except.error _, Except.ok _ =>
    Decidable.isFalse (fun hc => Except.noConfusion hc)
  | Except.ok _, Except.error _ =>
    Decidable.isFalse (fun hc => Except.noConfusion hc)

/-- Outcome of one `getMojangAPI` call (src/utils.js lines 194-219):
the number of milliseconds after which the `setTimeout` callback resets
`apiLimited`, and the surfaced result. -/
structure MojangOutcome where
  unlockDelayMs : Nat
  result : Except String (Option (List NameEntry))
deriving DecidableEq

/-- The guard of src/utils.js line 195,
`if (this.config.api.ratelimit && this.apiLimited)`: a caller waits
(for 10 ms, then re-checks) exactly when the configured ratelimit is
truthy (nonzero) and the shared flag is set. -/
def mojangWaits (ratelimit : Nat) (apiLimited : Bool) : Bool :=
  (ratelimit != 0) && apiLimited

/-- Embedding of `getMojangAPI` once it issues the request (src/utils.js lines
199-218), as a function of the single HTTP outcome: on failure the
unlock timer is scheduled at `ratelimit * 3000` ms and the error is
rethrown; on success at `ratelimit * 1000` ms and the body returned.
There is no internal retry of the HTTP request. -/
def getMojangAPI (ratelimit : Nat)
    (http : Except String (Option (List NameEntry))) : MojangOutcome :=
  match http with
  | Except.error e => ⟨ratelimit * 3000, Except.error e⟩
  | Except.ok b => ⟨ratelimit * 1000, Except.ok b⟩

/-- The descending comparison used by the sort of src/utils.js line
190: `(b.changedToAt || 0) - (a.changedToAt || 0)`, i.e. order by the
`changedToAt` value with a missing value read as 0. -/
def histGE (a b : NameEntry) : Prop :=
  b.changedToAt.getD 0 ≤ a.changedToAt.getD 0

instance : DecidableRel histGE := fun _ _ =>
  inferInstanceAs (Decidable (_ ≤ _))

instance : IsTotal NameEntry histGE :=
  ⟨fun a b => (Nat.le_total (b.changedToAt.getD 0) (a.changedToAt.getD 0)).elim Or.inl Or.inr⟩

instance : IsTrans NameEntry histGE :=
  ⟨fun _ _ _ h1 h2 => Nat.le_trans h2 h1⟩

/-- Embedding of the sort call of src/utils.js line 190: a stable sort of the
entries into descending `changedToAt` order (missing values read as
0). -/
def sortHistory (l : List NameEntry) : List NameEntry :=
  List.insertionSort histGE l

/-- Embedding of `getNameHistory` (src/utils.js lines 179-192) as a function of the
HTTP outcome: `null` when the lookup threw or returned a falsy body,
otherwise the sorted history. -/
def getNameHistory (ratelimit : Nat)
    (http : Except String (Option (List NameEntry))) :
    Option (List NameEntry) :=
  match (getMojangAPI ratelimit http).result with
  | Except.error _ => none
  | Except.ok none => none
  | Except.ok (some l) => some (sortHistory l)

/-- Embedding of `getPlayerData` (src/utils.js lines 114-154): rejects (with no
value) when the binary `.dat` read fails or the name history is absent
or empty; otherwise builds the `pdata` record. -/
def getPlayerData (uuid : String) (nbt : Option NbtPlayer)
    (ratelimit : Nat) (http : Except String (Option (List NameEntry)))
    (now : Nat) : Option PData :=
  match nbt with
  | none => none
  | some n =>
    match getNameHistory ratelimit http with
    | some (h0 :: rest) =>
      some
        { seen := n.lastPlayed
          time_start := n.firstPlayed
          time_last := n.lastPlayed
          time_lived :=
            match n.ticksLived with
            | some t => TimeLived.secs ((t : ℚ) / 20)
            | none => TimeLived.emptyStr
          playername := h0.name
          names := h0 :: rest
          uuid_short := stripDashes uuid
          lastUpdate := now
          uuid := uuid
          banned := none }
    | _ => none

/-- Embedding of `getPlayerTotalData` (src/utils.js lines 156-177): all four reads
sit inside one try block, so a failure of any of them makes the whole
function return `null`. -/
def getPlayerTotalData (e : Env) (uuid : String) : Option TotalData :=
  match getPlayerState e.statsCfg e.statsFile with
  | none => none
  | some s =>
    match getPlayerAdvancements e.advCfg e.advFile with
    | none => none
    | some a =>
      match getPlayerData uuid e.nbtFile e.ratelimit e.apiResult e.now with
      | none => none
      | some d =>
        some ⟨some s.merged, some s.source, some a, some d⟩

/-- Embedding of `getPlayerAssets` (src/utils.js lines 221-246) as the list of
download destinations it attempts: three unconditional downloads
(avatar, body render, skin), or none when `fs.ensureDirSync` throws
before any download starts.  The URLs and the slim-model fallback
parameter (computed by `defaultSkin` in the absent `helper.js`) do not
affect any claim and are not modelled. -/
def getPlayerAssets (assetsThrow : Bool) (playerpath : String) :
    List String :=
  if assetsThrow then []
  else
    [pathJoin playerpath "avatar.png",
     pathJoin playerpath "body.png",
     pathJoin playerpath "skin.png"]

/-- Observable outcome of one `createPlayerData` run: the settled
promise, the set of asset downloads attempted, and whether the cache
file was (re)written. -/
structure CPDResult where
  result : Except (Option Unit) (Option TotalData)
  downloads : List String
  wroteCache : Bool
deriving DecidableEq

/-- Stage 1 of `createPlayerData` (src/utils.js lines 252-260): read
and parse the cache file when it exists (a parse failure rejects with
the thrown error, modelled `some ()`), otherwise build the data via
`getPlayerTotalData`. -/
def cpdData (e : Env) (uuid : String) :
    Except (Option Unit) (Option TotalData) :=
  if e.fsExists (pathJoin (playerPath e uuid) "stats.json") then
    match e.cacheContent with
    | none => Except.error (some ())
    | some td => Except.ok (some td)
  else Except.ok (getPlayerTotalData e uuid)

/-- Embedding of `createPlayerData` (src/utils.js lines 248-278).  Note the asset
check of line 261 is embedded verbatim: `fs.existsSync` is applied to
`jsStrAnd avatarPath bodyPath`, the JavaScript `&&` of the two path
strings. -/
def createPlayerData (e : Env) (uuid : String) (banned : Bool) :
    CPDResult :=
  let pp := playerPath e uuid
  match cpdData e uuid with
  | Except.error err => ⟨Except.error err, [], false⟩
  | Except.ok data =>
    if e.fsExists (jsStrAnd (pathJoin pp "avatar.png") (pathJoin pp "body.png")) then
      ⟨Except.ok data, [], false⟩
    else
      match data with
      | some td =>
        match td.stats, td.data with
        | some _, some pd =>
          ⟨Except.ok (some { td with data := some { pd with banned := some banned } }),
           getPlayerAssets e.assetsThrow pp, true⟩
        | _, _ => ⟨Except.error none, [], false⟩
      | none => ⟨Except.error none, [], false⟩

/-- Where one invocation of `getMojangAPI` (src/utils.js lines
194-219) can be between suspension points of the single-threaded event
loop: before the guard of line 195 (`checking`), parked in the 10 ms
`delay` of line 196 (`waiting`), between setting the shared flag on
line 199 and the response of the HTTP request (`inFlight`), or past
the request (`done`). -/
inductive LProc where
  | checking
  | waiting
  | inFlight
  | done
deriving DecidableEq

/-- Global state of the rate-limiter protocol: the shared `apiLimited`
flag (src/utils.js line 14), the number of pending `setTimeout` unlock
callbacks (lines 208-210 and 214-216), and the per-caller positions. -/
structure LSys where
  flag : Bool
  timers : Nat
  procs : List LProc
deriving DecidableEq

/-- Number of callers whose outbound request is currently in flight. -/
def inFlightCount (s : LSys) : Nat := s.procs.count LProc.inFlight

/-- One event-loop step of the rate-limiter protocol of `getMojangAPI`,
parameterised by the configured `ratelimit`.  The check of the guard on
line 195 and the flag assignment on line 199 have no suspension point
between them, so `acquire` is one atomic step; a caller only waits when
the ratelimit is nonzero (truthy) and the flag is set; `finish` models
the HTTP response arriving and the `setTimeout` being scheduled;
`unlock` models a scheduled timer firing and clearing the flag. -/
inductive LStep (rl : Nat) : LSys → LSys → Prop where
  | acquire (f : Bool) (t : Nat) (pre post : List LProc) :
      (rl = 0 ∨ f = false) →
      LStep rl ⟨f, t, pre ++ LProc.checking :: post⟩
        ⟨true, t, pre ++ LProc.inFlight :: post⟩
  | toWait (t : Nat) (pre post : List LProc) :
      rl ≠ 0 →
      LStep rl ⟨true, t, pre ++ LProc.checking :: post⟩
        ⟨true, t, pre ++ LProc.waiting :: post⟩
  | wake (f : Bool) (t : Nat) (pre post : List LProc) :
      LStep rl ⟨f, t, pre ++ LProc.waiting :: post⟩
        ⟨f, t, pre ++ LProc.checking :: post⟩
  | finish (f : Bool) (t : Nat) (pre post : List LProc) :
      LStep rl ⟨f, t, pre ++ LProc.inFlight :: post⟩
        ⟨f, t + 1, pre ++ LProc.done :: post⟩
  | unlock (f : Bool) (t : Nat) (ps : List LProc) :
      LStep rl ⟨f, t + 1, ps⟩ ⟨false, t, ps⟩

/-- Reachability under the rate-limiter protocol. -/
def LReach (rl : Nat) : LSys → LSys → Prop :=
  Relation.ReflTransGen (LStep rl)

/-- Initial state: flag clear, no pending timers, `n` callers about to
consult the guard. -/
def linit (n : Nat) : LSys :=
  ⟨false, 0, List.replicate n LProc.checking⟩

/-- Case-insensitive hexadecimal digit: the class `[0-9a-f]` under the
regex flag `i`. -/
def isHexCI (c : Char) : Bool :=
  (('0' ≤ c) && (c ≤ '9')) || (('a' ≤ c) && (c ≤ 'f')) ||
    (('A' ≤ c) && (c ≤ 'F'))

/-- The literal dash of the pattern. -/
def isDashC (c : Char) : Bool := c == '-'

/-- The class `[1-5]` (version nibble); digits are unaffected by the
`i` flag. -/
def isVerC (c : Char) : Bool := ('1' ≤ c) && (c ≤ '5')

/-- The class `[89ab]` (variant nibble) under the `i` flag. -/
def isVarC (c : Char) : Bool :=
  (c == '8') || (c == '9') || (c == 'a') || (c == 'b') ||
    (c == 'A') || (c == 'B')

/-- The uuid pattern of src/utils.js line 48, with its counted
quantifiers expanded: 8 hex, dash, 4 hex, dash, `[1-5]` then 3 hex,
dash, `[89ab]` then 3 hex, dash, 12 hex, anchored at both ends. -/
def uuidClasses : List (Char → Bool) :=
  [isHexCI, isHexCI, isHexCI, isHexCI, isHexCI, isHexCI, isHexCI, isHexCI,
   isDashC,
   isHexCI, isHexCI, isHexCI, isHexCI,
   isDashC,
   isVerC, isHexCI, isHexCI, isHexCI,
   isDashC,
   isVarC, isHexCI, isHexCI, isHexCI,
   isDashC,
   isHexCI, isHexCI, isHexCI, isHexCI, isHexCI, isHexCI,
   isHexCI, isHexCI, isHexCI, isHexCI, isHexCI, isHexCI]

/-- Match a fixed sequence of character classes against a character
list, consuming all of it (the pattern is anchored by both a caret and
a dollar). -/
def matchesClasses : List (Char → Bool) → List Char → Bool
  | [], [] => true
  | p :: ps, c :: cs => p c && matchesClasses ps cs
  | _, _ => false

/-- The test of the regex of src/utils.js line 48 on a string. -/
def uuidRegexTest (s : String) : Bool :=
  matchesClasses uuidClasses s.toList

/-- Written from the words of the claim: position `i` of a canonical
8-4-4-4-12 uuid string holds a dash at offsets 8, 13, 18 and 23, a
version nibble in one to five at offset 14, a variant nibble in 8, 9,
a, b (case-insensitively) at offset 19, and a case-insensitive hex
digit everywhere else. -/
def specClass (i : Nat) (c : Char) : Bool :=
  if (i == 8) || (i == 13) || (i == 18) || (i == 23) then isDashC c
  else if i == 14 then isVerC c
  else if i == 19 then isVarC c
  else isHexCI c

/-- Written from the words of the claim: the canonical form is exactly
36 characters long and every position satisfies its positional
class. -/
def uuidSpecAccepts (s : String) : Prop :=
  s.toList.length = 36 ∧
    ∀ i (h : i < s.toList.length), specClass i (s.toList.get ⟨i, h⟩) = true

/-- A joined path is never the empty string. -/
theorem pathJoin_ne_empty (a b : String) : pathJoin a b ≠ "" := by
  intro h
  have hl := congrArg String.length h
  have hone : ("/" : String).length = 1 := rfl
  simp [pathJoin, String.length_append, hone] at hl

/-- The JavaScript `&&` of the two asset paths evaluates to the second
path: the avatar path is a nonempty string, hence truthy, so only the
presence of `body.png` is ever tested by src/utils.js line 261. -/
theorem jsStrAnd_paths (pp x y : String) : jsStrAnd (pathJoin pp x) y = y := by
  unfold jsStrAnd
  rw [if_neg (pathJoin_ne_empty pp x)]

/-- A cached `pdata` record previously persisted with `banned = false`. -/
def pdCached : PData :=
  ⟨0, 0, 0, TimeLived.emptyStr, "n", [⟨"n", none⟩], "u", 0, "u", some false⟩

/-- A complete cached `TotalData` document. -/
def tdCached : TotalData := ⟨some [], some [], some [], some pdCached⟩

/-- A baseline environment: empty file system, all reads succeed, one
name-history entry, ratelimit 1. -/
def baseEnv : Env :=
  { output := "o"
    fsExists := fun _ => false
    cacheContent := none
    statsCfg := true
    statsFile := some []
    advCfg := true
    advFile := some []
    nbtFile := some ⟨none, 0, 0⟩
    ratelimit := 1
    apiResult := Except.ok (some [⟨"n", none⟩])
    now := 0
    assetsThrow := false }

/-- Environment for the asset-check evaluation: the cache file and
`body.png` exist, `avatar.png` does not, and the cached document is
complete. -/
def envC1 : Env :=
  { baseEnv with
    fsExists := fun s => (s == "o/u/stats.json") || (s == "o/u/body.png")
    cacheContent := some tdCached }

/-- C1: the claim says that when either of the two expected asset
files is missing all three downloads are attempted.  At this input
`avatar.png` is missing and `body.png` is present, the cached data is
complete, and yet `createPlayerData` performs zero downloads and
resolves: line 261 applies `fs.existsSync` to the JavaScript `&&` of
the two path strings, which evaluates to the second path, so only the
presence of `body.png` is tested.  Section 9 of the spec flags exactly
this check as the slip and names the both-files behaviour as the
intent, so the code, not the claim, is wrong. -/
theorem C1_zero_downloads_with_avatar_missing :
    envC1.fsExists (pathJoin (playerPath envC1 "u") "avatar.png") = false ∧
    envC1.fsExists (pathJoin (playerPath envC1 "u") "body.png") = true ∧
    (createPlayerData envC1 "u" false).downloads = [] ∧
    (createPlayerData envC1 "u" false).result = Except.ok (some tdCached) := by
  refine ⟨rfl, rfl, rfl, rfl⟩

/-- Environment for C10: no cache file, the binary state read fails
(so the build returns null), and `body.png` already exists. -/
def envC10 : Env :=
  { baseEnv with
    nbtFile := none
    fsExists := fun s => s == "o/u/body.png" }

/-- C10: with no cache file present, a failing snapshot build (null
from `getPlayerTotalData`), and `body.png` existing, `createPlayerData`
resolves successfully with the null value instead of rejecting. -/
theorem C10_resolves_null :
    envC10.fsExists (pathJoin (playerPath envC10 "u") "stats.json") = false ∧
    getPlayerTotalData envC10 "u" = none ∧
    envC10.fsExists (pathJoin (playerPath envC10 "u") "body.png") = true ∧
    (createPlayerData envC10 "u" false).result = Except.ok none := by
  refine ⟨rfl, rfl, rfl, rfl⟩

/-- Environment for C2: cache file and `body.png` exist and the cached
document was written with `banned = false`. -/
def envC2 : Env :=
  { baseEnv with
    fsExists := fun s => (s == "o/u/stats.json") || (s == "o/u/body.png")
    cacheContent := some tdCached }

/-- C2 counterexample: calling `createPlayerData` with `banned = true`
on a cache previously written with `banned = false` returns the cached
snapshot unchanged, so the `banned` field does not equal the supplied
value: the early resolve of src/utils.js line 262 skips the line 269
refresh. -/
theorem C2_counterexample :
    (createPlayerData envC2 "u" true).result = Except.ok (some tdCached) ∧
    tdCached.data = some pdCached ∧
    pdCached.banned = some false := by
  refine ⟨rfl, rfl, rfl⟩

/-- The finalize step of src/utils.js lines 269-272: spread the old
`data.data` and overwrite `banned`. -/
def withBanned (td : TotalData) (pd : PData) (b : Bool) : TotalData :=
  { td with data := some { pd with banned := some b } }

/-- C2 amended: the snapshot carries the caller-supplied `banned` value
exactly when the run takes the rebuild branch, i.e. when the asset
check fails (`body.png` missing, the only file line 261 actually
tests); when the asset check passes, the loaded or built data is
resolved unchanged, retaining any previously cached `banned` value. -/
theorem C2_banned_refresh (e : Env) (uuid : String) (b : Bool)
    (td : TotalData) (m : MergedStats) (pd : PData)
    (hd : cpdData e uuid = Except.ok (some td))
    (hs : td.stats = some m) (hp : td.data = some pd) :
    (e.fsExists (pathJoin (playerPath e uuid) "body.png") = false →
      (createPlayerData e uuid b).result =
        Except.ok (some (withBanned td pd b)) ∧
      (withBanned td pd b).data = some { pd with banned := some b }) ∧
    (e.fsExists (pathJoin (playerPath e uuid) "body.png") = true →
      (createPlayerData e uuid b).result = Except.ok (some td)) := by
  have hpath := jsStrAnd_paths (playerPath e uuid) "avatar.png"
    (pathJoin (playerPath e uuid) "body.png")
  constructor
  · intro hb
    refine ⟨?_, rfl⟩
    simp only [createPlayerData, hd, hpath, hb, hs, hp, withBanned,
      if_false, Bool.false_eq_true]
  · intro hb
    simp only [createPlayerData, hd, hpath, hb, if_true]

/-- Environment for the C2 witness: cache present and complete,
`body.png` missing. -/
def envC2w : Env :=
  { baseEnv with
    fsExists := fun s => s == "o/u/stats.json"
    cacheContent := some tdCached }

/-- C2 witness: on the rebuild branch the supplied value is applied. -/
theorem C2_banned_refresh_witness :
    (createPlayerData envC2w "u" true).result =
      Except.ok (some (withBanned tdCached pdCached true)) :=
  ((C2_banned_refresh envC2w "u" true tdCached [] pdCached rfl rfl rfl).1 rfl).1

/-- Lemma: `getPlayerState` rejects whenever the statistics file is missing or
unreadable, whatever the configuration flag. -/
theorem getPlayerState_none (c : Bool) : getPlayerState c none = none := by
  cases c <;> simp [getPlayerState]

/-- Lemma: `getPlayerAdvancements` rejects whenever the advancements file is
missing or unreadable, whatever the configuration flag. -/
theorem getPlayerAdvancements_none (c : Bool) :
    getPlayerAdvancements c none = none := by
  cases c <;> simp [getPlayerAdvancements]

/-- Environment for C3: only the statistics file is missing. -/
def envC3 : Env := { baseEnv with statsFile := none }

/-- C3 counterexample: with only the statistics file missing (all other
reads succeed, as witnessed by the same environment with the file
restored succeeding), the aggregation does not succeed with the field
absent — `getPlayerTotalData` returns null and `createPlayerData`
rejects. -/
theorem C3_counterexample :
    envC3.statsFile = none ∧
    getPlayerTotalData envC3 "u" = none ∧
    (createPlayerData envC3 "u" false).result = Except.error none ∧
    (createPlayerData baseEnv "u" false).result = Except.ok (some tdCached) := by
  refine ⟨rfl, rfl, rfl, rfl⟩

/-- C3 amended: a missing or unreadable statistics or advancements file
is fatal to the build: the single try block of `getPlayerTotalData`
(src/utils.js lines 162-170) makes it return null, and on a cache miss
`createPlayerData` then rejects (with no error value) whenever the
asset check also fails. -/
theorem C3_required_reads (e : Env) (uuid : String) (b : Bool)
    (h : e.statsFile = none ∨ e.advFile = none) :
    getPlayerTotalData e uuid = none ∧
    (e.fsExists (pathJoin (playerPath e uuid) "stats.json") = false →
      e.fsExists (pathJoin (playerPath e uuid) "body.png") = false →
      (createPlayerData e uuid b).result = Except.error none) := by
  have htot : getPlayerTotalData e uuid = none := by
    rcases h with h | h
    · simp [getPlayerTotalData, h, getPlayerState_none]
    · cases hgs : getPlayerState e.statsCfg e.statsFile with
      | none => simp [getPlayerTotalData, hgs]
      | some s => simp [getPlayerTotalData, hgs, h, getPlayerAdvancements_none]
  refine ⟨htot, ?_⟩
  intro hc hb
  have hpath := jsStrAnd_paths (playerPath e uuid) "avatar.png"
    (pathJoin (playerPath e uuid) "body.png")
  simp only [createPlayerData, cpdData, hc, htot, hpath, hb, if_false,
    Bool.false_eq_true]

/-- C3 witness: the amended statement applied to the concrete
missing-statistics environment. -/
theorem C3_required_reads_witness :
    getPlayerTotalData envC3 "u" = none ∧
    (createPlayerData envC3 "u" false).result = Except.error none :=
  ⟨(C3_required_reads envC3 "u" false (Or.inl rfl)).1,
   (C3_required_reads envC3 "u" false (Or.inl rfl)).2 rfl rfl⟩

/-- Lemma: `getPlayerData` rejects when the binary read fails or the name
history is absent or empty. -/
theorem getPlayerData_none_of (uuid : String) (nbt : Option NbtPlayer)
    (rl : Nat) (http : Except String (Option (List NameEntry))) (now : Nat)
    (h : nbt = none ∨ getNameHistory rl http = none ∨
      getNameHistory rl http = some []) :
    getPlayerData uuid nbt rl http now = none := by
  rcases h with h | h | h
  · simp [getPlayerData, h]
  · cases nbt with
    | none => rfl
    | some n => simp [getPlayerData, h]
  · cases nbt with
    | none => rfl
    | some n => simp [getPlayerData, h]

/-- A failing `getPlayerData` makes the whole build return null. -/
theorem getPlayerTotalData_none_of_data (e : Env) (uuid : String)
    (hd : getPlayerData uuid e.nbtFile e.ratelimit e.apiResult e.now = none) :
    getPlayerTotalData e uuid = none := by
  cases hgs : getPlayerState e.statsCfg e.statsFile with
  | none => simp [getPlayerTotalData, hgs]
  | some s =>
    cases hga : getPlayerAdvancements e.advCfg e.advFile with
    | none => simp [getPlayerTotalData, hgs, hga]
    | some a => simp [getPlayerTotalData, hgs, hga, hd]

/-- The settled promise of `createPlayerData` does not depend on
whether `getPlayerAssets` throws: the failure is caught and logged
(src/utils.js lines 264-268) and only the attempted downloads
differ. -/
theorem result_ignores_assetsThrow (e : Env) (uuid : String) (b : Bool)
    (t1 t2 : Bool) :
    (createPlayerData { e with assetsThrow := t1 } uuid b).result =
      (createPlayerData { e with assetsThrow := t2 } uuid b).result := by
  have h1 : cpdData { e with assetsThrow := t1 } uuid = cpdData e uuid := rfl
  have h2 : cpdData { e with assetsThrow := t2 } uuid = cpdData e uuid := rfl
  have hp1 : playerPath { e with assetsThrow := t1 } uuid = playerPath e uuid := rfl
  have hp2 : playerPath { e with assetsThrow := t2 } uuid = playerPath e uuid := rfl
  have hf1 : ({ e with assetsThrow := t1 } : Env).fsExists = e.fsExists := rfl
  have hf2 : ({ e with assetsThrow := t2 } : Env).fsExists = e.fsExists := rfl
  cases hd : cpdData e uuid with
  | error err => simp [createPlayerData, h1, h2, hd]
  | ok data =>
    simp only [createPlayerData, h1, h2, hd, hp1, hp2, hf1, hf2]
    split
    · rfl
    · cases data with
      | none => rfl
      | some td =>
        obtain ⟨ts, tss, ta, tdd⟩ := td
        cases ts <;> cases tdd <;> rfl

/-- Environment for C4: the binary player-state read fails. -/
def envC4 : Env := { baseEnv with nbtFile := none }

/-- C4 counterexample: at two different uuids whose required state read
fails, `createPlayerData` rejects with the bare rejection value of
src/utils.js line 276 — no error object at all — so the surfaced error
is identical for both and cannot carry the uuid or the failed stage. -/
theorem C4_counterexample :
    (createPlayerData envC4 "a-1" true).result = Except.error none ∧
    (createPlayerData envC4 "b-2" true).result = Except.error none ∧
    "a-1" ≠ "b-2" := by
  refine ⟨rfl, rfl, by decide⟩

/-- C4 amended: when the required state or identity data cannot be
obtained (and there is no cache hit and the asset check fails),
`createPlayerData` rejects with an empty rejection carrying no context
at all; and an asset-fetch failure never changes the settled result of
the call. -/
theorem C4_reject_empty :
    (∀ (e : Env) (uuid : String) (b : Bool),
      e.fsExists (pathJoin (playerPath e uuid) "stats.json") = false →
      e.fsExists (pathJoin (playerPath e uuid) "body.png") = false →
      (e.nbtFile = none ∨ getNameHistory e.ratelimit e.apiResult = none ∨
        getNameHistory e.ratelimit e.apiResult = some []) →
      (createPlayerData e uuid b).result = Except.error none) ∧
    (∀ (e : Env) (uuid : String) (b : Bool),
      (createPlayerData { e with assetsThrow := true } uuid b).result =
        (createPlayerData { e with assetsThrow := false } uuid b).result) := by
  constructor
  · intro e uuid b hc hb hfail
    have htot : getPlayerTotalData e uuid = none :=
      getPlayerTotalData_none_of_data e uuid
        (getPlayerData_none_of uuid e.nbtFile e.ratelimit e.apiResult e.now hfail)
    have hpath := jsStrAnd_paths (playerPath e uuid) "avatar.png"
      (pathJoin (playerPath e uuid) "body.png")
    simp only [createPlayerData, cpdData, hc, htot, hpath, hb, if_false,
      Bool.false_eq_true]
  · intro e uuid b
    exact result_ignores_assetsThrow e uuid b true false

/-- C4 witness: the amended statement applied to the concrete
failing-state environment. -/
theorem C4_reject_empty_witness :
    (createPlayerData envC4 "u" true).result = Except.error none ∧
    (createPlayerData { envC4 with assetsThrow := true } "u" true).result =
      (createPlayerData { envC4 with assetsThrow := false } "u" true).result :=
  ⟨C4_reject_empty.1 envC4 "u" true rfl rfl (Or.inl rfl),
   C4_reject_empty.2 envC4 "u" true⟩

/-- C5: after a successful lookup the shared flag is scheduled to
unlock after ratelimit times one base unit (of 1000 ms); after a failed
lookup after ratelimit times three base units, with the error surfaced
unchanged (no internal retry); and a zero ratelimit disables the
lock-wait guard entirely. -/
theorem C5_rate_limiter (rl : Nat)
    (http : Except String (Option (List NameEntry))) :
    (∀ body, http = Except.ok body →
      (getMojangAPI rl http).unlockDelayMs = rl * 1 * 1000 ∧
      (getMojangAPI rl http).result = Except.ok body) ∧
    (∀ err, http = Except.error err →
      (getMojangAPI rl http).unlockDelayMs = rl * 3 * 1000 ∧
      (getMojangAPI rl http).result = Except.error err) ∧
    (rl = 0 → ∀ limited, mojangWaits rl limited = false) := by
  refine ⟨?_, ?_, ?_⟩
  · intro body hb
    subst hb
    constructor
    · have h : (getMojangAPI rl (Except.ok body)).unlockDelayMs = rl * 1000 := rfl
      omega
    · rfl
  · intro err he
    subst he
    constructor
    · have h : (getMojangAPI rl (Except.error err)).unlockDelayMs = rl * 3000 := rfl
      omega
    · rfl
  · intro h0 limited
    subst h0
    simp [mojangWaits]

/-- C5 witness: the three clauses at concrete inputs. -/
theorem C5_rate_limiter_witness :
    (getMojangAPI 2 (Except.ok none)).unlockDelayMs = 2000 ∧
    (getMojangAPI 2 (Except.error "boom")).unlockDelayMs = 6000 ∧
    (getMojangAPI 2 (Except.error "boom")).result = Except.error "boom" ∧
    mojangWaits 0 true = false := by
  refine ⟨?_, ?_, ?_, ?_⟩
  · have h := ((C5_rate_limiter 2 (Except.ok none)).1 none rfl).1
    omega
  · have h := ((C5_rate_limiter 2 (Except.error "boom")).2.1 "boom" rfl).1
    omega
  · exact ((C5_rate_limiter 2 (Except.error "boom")).2.1 "boom" rfl).2
  · exact (C5_rate_limiter 0 (Except.ok none)).2.2 rfl true

/-- C6: the name history is returned sorted descending by
`changedToAt` with missing values read as 0 (hence ordered last), as a
permutation of the service response, and the snapshot playername is
the name of the first entry after sorting. -/
theorem C6_history_sorted (rl : Nat) (l : List NameEntry) (uuid : String)
    (n : NbtPlayer) (now : Nat) :
    getNameHistory rl (Except.ok (some l)) = some (sortHistory l) ∧
    (sortHistory l).Perm l ∧
    List.Pairwise
      (fun a b => b.changedToAt.getD 0 ≤ a.changedToAt.getD 0)
      (sortHistory l) ∧
    (∀ pd, getPlayerData uuid (some n) rl (Except.ok (some l)) now = some pd →
      pd.names = sortHistory l ∧
      ∀ e rest, sortHistory l = e :: rest → pd.playername = e.name) := by
  refine ⟨rfl, List.perm_insertionSort histGE l, ?_, ?_⟩
  · exact List.sorted_insertionSort histGE l
  · intro pd hpd
    have hgn : getNameHistory rl (Except.ok (some l)) = some (sortHistory l) := rfl
    rw [getPlayerData, hgn] at hpd
    cases hsl : sortHistory l with
    | nil =>
      rw [hsl] at hpd
      exact absurd hpd (by simp)
    | cons h0 rest =>
      rw [hsl] at hpd
      simp only [Option.some.injEq] at hpd
      subst hpd
      refine ⟨rfl, ?_⟩
      intro e r he
      injection he with h1 _
      simp [h1]

/-- C6 witness: a two-entry response, one entry lacking `changedToAt`,
is sorted descending with the missing-timestamp entry last and the
playername taken from the first sorted entry. -/
theorem C6_history_sorted_witness :
    getNameHistory 1 (Except.ok (some [⟨"a", none⟩, ⟨"b", some 5⟩])) =
      some [⟨"b", some 5⟩, ⟨"a", none⟩] ∧
    (getPlayerData "u" (some ⟨none, 0, 0⟩) 1
        (Except.ok (some [⟨"a", none⟩, ⟨"b", some 5⟩])) 0).map
      PData.playername = some "b" := by
  have hth := C6_history_sorted 1 [⟨"a", none⟩, ⟨"b", some 5⟩] "u" ⟨none, 0, 0⟩ 0
  have hsort : sortHistory [⟨"a", none⟩, ⟨"b", some 5⟩] =
      [⟨"b", some 5⟩, ⟨"a", none⟩] := by decide
  constructor
  · rw [hth.1, hsort]
  · have hpd := hth.2.2.2
    have heval : getPlayerData "u" (some ⟨none, 0, 0⟩) 1
        (Except.ok (some [⟨"a", none⟩, ⟨"b", some 5⟩])) 0 =
        some ⟨0, 0, 0, TimeLived.emptyStr, "b",
          [⟨"b", some 5⟩, ⟨"a", none⟩], "u", 0, "u", none⟩ := by decide
    have := (hpd _ heval).2 ⟨"b", some 5⟩ [⟨"a", none⟩] hsort
    rw [heval]
    simp [this]

/-- C7 counterexample: at a concrete input whose binary state lacks
`ticksLived`, the built snapshot still contains the `time_lived` key,
holding the empty-string sentinel the variable `lived` was initialised
to (src/utils.js line 132) — the field is not omitted. -/
theorem C7_counterexample :
    getPlayerData "u" (some ⟨none, 7, 9⟩) 1
        (Except.ok (some [⟨"n", none⟩])) 0 =
      some ⟨9, 7, 9, TimeLived.emptyStr, "n", [⟨"n", none⟩], "u", 0, "u", none⟩ ∧
    TimeLived.emptyStr ≠ TimeLived.secs 0 := by
  refine ⟨by decide, by decide⟩

/-- C7 amended: when `ticksLived` is present the snapshot `time_lived`
is the tick count divided by 20 (72000 gives 3600 seconds); when it is
absent, `time_lived` is set to the empty-string sentinel and the key is
still present in the snapshot. -/
theorem C7_time_lived (uuid : String) (n : NbtPlayer) (rl : Nat)
    (http : Except String (Option (List NameEntry))) (now : Nat) (pd : PData)
    (hpd : getPlayerData uuid (some n) rl http now = some pd) :
    (∀ t : Int, n.ticksLived = some t →
      pd.time_lived = TimeLived.secs ((t : ℚ) / 20)) ∧
    (n.ticksLived = none → pd.time_lived = TimeLived.emptyStr) ∧
    (n.ticksLived = some 72000 → pd.time_lived = TimeLived.secs 3600) := by
  rw [getPlayerData] at hpd
  cases hgn : getNameHistory rl http with
  | none =>
    rw [hgn] at hpd
    exact absurd hpd (by simp)
  | some hist =>
    rw [hgn] at hpd
    cases hist with
    | nil => exact absurd hpd (by simp)
    | cons h0 rest =>
      simp only [Option.some.injEq] at hpd
      subst hpd
      refine ⟨?_, ?_, ?_⟩
      · intro t ht
        simp [ht]
      · intro ht
        simp [ht]
      · intro ht
        simp only [ht]
        norm_num

/-- C7 witness: `ticksLived = 72000` yields `time_lived = 3600` on the
snapshot `getPlayerData` builds at a concrete input. -/
theorem C7_time_lived_witness :
    (⟨9, 7, 9, TimeLived.secs (((72000 : Int) : ℚ) / 20), "n", [⟨"n", none⟩],
      "u", 0, "u", none⟩ : PData).time_lived = TimeLived.secs 3600 :=
  (C7_time_lived "u" ⟨some 72000, 7, 9⟩ 1
    (Except.ok (some [⟨"n", none⟩])) 0 _ rfl).2.2 rfl

/-- Inductive invariant of the rate-limiter protocol when limiting is
enabled: at most one request in flight or unlock timer pending at a
time, and none of either while the flag is clear. -/
def LInv (s : LSys) : Prop :=
  inFlightCount s + s.timers ≤ 1 ∧
    (s.flag = false → inFlightCount s + s.timers = 0)

/-- The invariant holds initially. -/
theorem linv_init (n : Nat) : LInv (linit n) := by
  constructor <;> simp [linit, inFlightCount, List.count_replicate]

/-- The invariant is preserved by every step when the ratelimit is
nonzero. -/
theorem linv_step (rl : Nat) (hrl : rl ≠ 0) {s s' : LSys}
    (hstep : LStep rl s s') (hinv : LInv s) : LInv s' := by
  obtain ⟨h1, h2⟩ := hinv
  cases hstep with
  | acquire f t pre post hg =>
    have hf : f = false := by
      rcases hg with hg | hg
      · exact absurd hg hrl
      · exact hg
    subst hf
    have h0 := h2 rfl
    simp +decide [inFlightCount, List.count_append, List.count_cons] at h0 h1
    simp +decide [LInv, inFlightCount, List.count_append, List.count_cons]
    omega
  | toWait t pre post hne =>
    simp +decide [inFlightCount, List.count_append, List.count_cons] at h1
    simp +decide [LInv, inFlightCount, List.count_append, List.count_cons]
    omega
  | wake f t pre post =>
    cases f with
    | false =>
      have h0 := h2 rfl
      simp +decide [inFlightCount, List.count_append, List.count_cons] at h0 h1
      simp +decide [LInv, inFlightCount, List.count_append, List.count_cons]
      omega
    | true =>
      simp +decide [inFlightCount, List.count_append, List.count_cons] at h1
      simp +decide [LInv, inFlightCount, List.count_append, List.count_cons]
      omega
  | finish f t pre post =>
    cases f with
    | false =>
      have h0 := h2 rfl
      simp +decide [inFlightCount, List.count_append, List.count_cons] at h0
    | true =>
      simp +decide [inFlightCount, List.count_append, List.count_cons] at h1
      simp +decide [LInv, inFlightCount, List.count_append, List.count_cons]
      omega
  | unlock f t ps =>
    simp only [inFlightCount] at h1
    simp only [LInv, inFlightCount]
    constructor
    · omega
    · intro _
      omega

/-- C8 amended: with a nonzero configured ratelimit, in every state
reachable from the initial one, at most one outbound name-history
request is in flight across all callers: the guard check and the flag
assignment are one atomic event-loop step, and a caller finding the
flag set parks in the 10 ms delay and re-checks. -/
theorem C8_single_flight (rl n : Nat) (s : LSys) (hrl : rl ≠ 0)
    (hr : LReach rl (linit n) s) : inFlightCount s ≤ 1 := by
  have hinv : LInv s := by
    induction hr with
    | refl => exact linv_init n
    | tail _ hstep ih => exact linv_step rl hrl hstep ih
  have := hinv.1
  omega

/-- C8 witness: the amended bound applied to a concrete reachable
state. -/
theorem C8_single_flight_witness : inFlightCount (linit 1) ≤ 1 :=
  C8_single_flight 1 1 (linit 1) (by decide) Relation.ReflTransGen.refl

/-- C8 counterexample: with the ratelimit configured to zero the guard
of src/utils.js line 195 is never taken, so two callers can both be in
flight at once: a two-caller system reaches a state with two concurrent
outbound requests.  The claim, which asserts the bound unconditionally,
is therefore false for a zero ratelimit. -/
theorem C8_counterexample :
    LReach 0 (linit 2) ⟨true, 0, [LProc.inFlight, LProc.inFlight]⟩ ∧
    inFlightCount ⟨true, 0, [LProc.inFlight, LProc.inFlight]⟩ = 2 := by
  constructor
  · have s1 : LStep 0 (linit 2) ⟨true, 0, [LProc.inFlight, LProc.checking]⟩ := by
      have h := @LStep.acquire 0 false 0 [] [LProc.checking] (Or.inl rfl)
      simpa [linit] using h
    have s2 : LStep 0 ⟨true, 0, [LProc.inFlight, LProc.checking]⟩
        ⟨true, 0, [LProc.inFlight, LProc.inFlight]⟩ := by
      have h := @LStep.acquire 0 true 0 [LProc.inFlight] [] (Or.inl rfl)
      simpa using h
    exact Relation.ReflTransGen.head s1 (Relation.ReflTransGen.single s2)
  · decide

/-- Pointwise characterisation of matching a fixed class sequence: the
lengths agree and every position satisfies its class. -/
theorem matchesClasses_iff (ps : List (Char → Bool)) (cs : List Char) :
    matchesClasses ps cs = true ↔
      cs.length = ps.length ∧
        ∀ i (h1 : i < ps.length) (h2 : i < cs.length),
          ps.get ⟨i, h1⟩ (cs.get ⟨i, h2⟩) = true := by
  induction ps generalizing cs with
  | nil =>
    cases cs with
    | nil => simp [matchesClasses]
    | cons c cs => simp [matchesClasses]
  | cons p ps ih =>
    cases cs with
    | nil => simp [matchesClasses]
    | cons c cs =>
      simp only [matchesClasses, Bool.and_eq_true, ih, List.length_cons]
      constructor
      · rintro ⟨hp, hlen, hall⟩
        refine ⟨by omega, ?_⟩
        intro i h1 h2
        cases i with
        | zero => exact hp
        | succ j =>
          exact hall j (by omega) (by omega)
      · rintro ⟨hlen, hall⟩
        refine ⟨hall 0 (by omega) (by omega), by omega, ?_⟩
        intro j h1 h2
        exact hall (j + 1) (by omega) (by omega)

/-- The expanded class list of the uuid pattern has 36 entries. -/
theorem uuidClasses_length : uuidClasses.length = 36 := rfl

/-- Each position of the expanded pattern tests exactly the positional
class the claim describes. -/
theorem uuidClasses_agree (i : Nat) (h : i < uuidClasses.length) (c : Char) :
    uuidClasses.get ⟨i, h⟩ c = specClass i c := by
  have h36 : i < 36 := by
    simpa [uuidClasses_length] using h
  interval_cases i <;> rfl

/-- C9: the uuid regular expression of `getAllPlayers` accepts exactly
the strings in canonical 8-4-4-4-12 hexadecimal form whose version
nibble is one to five and whose variant nibble is 8, 9, a or b,
case-insensitively, and rejects every other string. -/
theorem C9_uuid_regex (s : String) :
    uuidRegexTest s = true ↔ uuidSpecAccepts s := by
  rw [uuidRegexTest, matchesClasses_iff, uuidSpecAccepts]
  simp only [uuidClasses_length]
  constructor
  · rintro ⟨hlen, hall⟩
    refine ⟨hlen, ?_⟩
    intro i h
    have h1 : i < uuidClasses.length := by
      rw [uuidClasses_length]
      omega
    have := hall i h1 h
    rwa [uuidClasses_agree i h1] at this
  · rintro ⟨hlen, hall⟩
    refine ⟨hlen, ?_⟩
    intro i h1 h2
    rw [uuidClasses_agree i]
    exact hall i h2

/-- C9 witness: a canonical v4 uuid is accepted, and strings with a bad
version nibble, a bad variant nibble or a missing dash are rejected. -/
theorem C9_uuid_regex_witness :
    uuidRegexTest "069a79f4-44e9-4726-a5be-fca90e38aaf5" = true ∧
    uuidRegexTest "069a79f4-44e9-7726-a5be-fca90e38aaf5" = false ∧
    uuidRegexTest "069a79f4-44e9-4726-75be-fca90e38aaf5" = false ∧
    uuidRegexTest "069a79f444e94726a5befca90e38aaf5" = false := by
  have h := (C9_uuid_regex "069a79f4-44e9-4726-a5be-fca90e38aaf5").mpr
  refine ⟨h ⟨by decide, by decide⟩, by decide, by decide, by decide⟩

end NyaaStats
